import Mathlib

/-!
Verification of the multi-tenant access-control core of a Supabase-backed
issue tracker.  The tables, the row-level-security (RLS) policies and the
client operations are embedded shallowly: each table is a list of rows,
each policy is a boolean predicate translated clause by clause from the
SQL sources, and each client mutation is a function on the database state.
The final policy set is the one obtained after applying every migration in
the repository in order: the initial migration creates the tables and the
first policies, a later migration introduces the SECURITY DEFINER function
get_user_project_ids and rewrites the project_members SELECT policy with
it, and the last migration rewrites the projects and tickets SELECT
policies with it.  The ticket INSERT policy and all comment policies are
never rewritten and keep their original membership-only subqueries.
-/

namespace BugTracker

/-- SQL enum ticket_type: bug, feature, task. -/
inductive TicketType where
  | bug
  | feature
  | task
deriving DecidableEq

/-- SQL enum ticket_priority: low, medium, high, critical. -/
inductive TicketPriority where
  | low
  | medium
  | high
  | critical
deriving DecidableEq

/-- SQL enum ticket_status: todo, in_progress, done. -/
inductive TicketStatus where
  | todo
  | in_progress
  | done
deriving DecidableEq

/-- SQL enum user_role: admin, developer, viewer. -/
inductive UserRole where
  | admin
  | developer
  | viewer
deriving DecidableEq

/-- Row of public.profiles.  Identifiers are modelled as naturals.
Timestamp columns not consulted by any policy are omitted. -/
structure Profile where
  id : Nat
  username : Option String
  full_name : Option String
deriving DecidableEq

/-- Row of public.projects. -/
structure Project where
  id : Nat
  name : String
  description : Option String
  owner_id : Nat
deriving DecidableEq

/-- Row of public.project_members.  The table carries
UNIQUE(project_id, user_id). -/
structure ProjectMember where
  id : Nat
  project_id : Nat
  user_id : Nat
  role : UserRole
  invited_by : Option Nat
  joined_at : Nat
deriving DecidableEq

/-- Row of public.tickets. -/
structure Ticket where
  id : Nat
  title : String
  description : Option String
  type : TicketType
  priority : TicketPriority
  status : TicketStatus
  project_id : Nat
  reporter_id : Nat
  assignee_id : Option Nat
  attachment_url : Option String
deriving DecidableEq

/-- Row of public.comments.  created_at is an abstract timestamp used by
the display ordering. -/
structure Comment where
  id : Nat
  content : String
  ticket_id : Nat
  author_id : Nat
  parent_id : Option Nat
  created_at : Nat
deriving DecidableEq

/-- The durable store: one list per table. -/
structure DB where
  profiles : List Profile
  projects : List Project
  project_members : List ProjectMember
  tickets : List Ticket
  comments : List Comment
deriving DecidableEq

/-- The SECURITY DEFINER function public.get_user_project_ids(user_uuid):
SELECT pm.project_id FROM project_members pm WHERE pm.user_id = user_uuid
UNION SELECT p.id FROM projects p WHERE p.owner_id = user_uuid.
Being SECURITY DEFINER it reads both tables raw, with no row filtering;
UNION removes duplicates, modelled by dedup. -/
def get_user_project_ids (u : Nat) (db : DB) : List Nat :=
  (((db.project_members.filter (fun m => m.user_id == u)).map
      (fun m => m.project_id)) ++
   ((db.projects.filter (fun p => p.owner_id == u)).map (fun p => p.id))).dedup

/-- Final SELECT policy on projects ("Users can view their projects"):
id IN (SELECT project_id FROM get_user_project_ids()) OR owner_id = uid. -/
def projectRowVisible (u : Nat) (db : DB) (p : Project) : Bool :=
  (get_user_project_ids u db).contains p.id || p.owner_id == u

/-- Projects visible to the caller under RLS. -/
def visibleProjects (u : Nat) (db : DB) : List Project :=
  db.projects.filter (projectRowVisible u db)

/-- The subquery SELECT id FROM public.projects WHERE owner_id = auth.uid()
that appears in the owner-side policies.  Inside a policy the projects
table is itself read under its RLS SELECT policy. -/
def ownedProjectIds (u : Nat) (db : DB) : List Nat :=
  ((visibleProjects u db).filter (fun p => p.owner_id == u)).map (fun p => p.id)

/-- SELECT visibility of a project_members row: the disjunction of the
patched policy "Users can view project members of projects they're in"
(project_id IN (SELECT get_user_project_ids())) and the FOR ALL policy
"Project owners can manage members" (project_id IN owned projects). -/
def memberRowVisible (u : Nat) (db : DB) (m : ProjectMember) : Bool :=
  (get_user_project_ids u db).contains m.project_id ||
  (ownedProjectIds u db).contains m.project_id

/-- project_members rows visible to the caller under RLS. -/
def visibleMembers (u : Nat) (db : DB) : List ProjectMember :=
  db.project_members.filter (memberRowVisible u db)

/-- The subquery SELECT project_id FROM public.project_members WHERE
user_id = auth.uid() used by the never-rewritten ticket and comment
policies; inside a policy the project_members table is read under its own
RLS SELECT visibility. -/
def membershipProjectIds (u : Nat) (db : DB) : List Nat :=
  ((visibleMembers u db).filter (fun m => m.user_id == u)).map
    (fun m => m.project_id)

/-- Final SELECT policy on tickets ("Users can view tickets in their
projects"): project_id IN (SELECT project_id FROM get_user_project_ids()). -/
def canReadTicket (u : Nat) (t : Ticket) (db : DB) : Bool :=
  (get_user_project_ids u db).contains t.project_id

/-- INSERT policy on tickets ("Project members can create tickets", never
rewritten): project_id IN (SELECT project_id FROM project_members WHERE
user_id = auth.uid()) AND auth.uid() = reporter_id. -/
def canCreateTicket (u : Nat) (t : Ticket) (db : DB) : Bool :=
  (membershipProjectIds u db).contains t.project_id && t.reporter_id == u

/-- UPDATE policy on tickets ("Assignees and project owners can update
tickets"): auth.uid() = assignee_id OR project_id IN (SELECT id FROM
projects WHERE owner_id = auth.uid()). -/
def canUpdateTicket (u : Nat) (t : Ticket) (db : DB) : Bool :=
  t.assignee_id == some u || (ownedProjectIds u db).contains t.project_id

/-- DELETE policy on tickets ("Project owners can delete tickets"). -/
def canDeleteTicket (u : Nat) (t : Ticket) (db : DB) : Bool :=
  (ownedProjectIds u db).contains t.project_id

/-- Tickets visible to the caller under RLS. -/
def visibleTickets (u : Nat) (db : DB) : List Ticket :=
  db.tickets.filter (fun t => canReadTicket u t db)

/-- The subquery SELECT id FROM public.tickets WHERE project_id IN
(SELECT project_id FROM project_members WHERE user_id = auth.uid()) used
by both comment policies; the tickets table is read under its RLS SELECT
policy. -/
def memberVisibleTicketIds (u : Nat) (db : DB) : List Nat :=
  ((visibleTickets u db).filter
      (fun t => (membershipProjectIds u db).contains t.project_id)).map
    (fun t => t.id)

/-- SELECT policy on comments ("Users can view comments on tickets they
can see", never rewritten): ticket_id IN the membership-gated ticket set. -/
def canReadComment (u : Nat) (c : Comment) (db : DB) : Bool :=
  (memberVisibleTicketIds u db).contains c.ticket_id

/-- INSERT policy on comments ("Project members can create comments",
never rewritten): the same ticket set AND auth.uid() = author_id. -/
def canCreateComment (u : Nat) (c : Comment) (db : DB) : Bool :=
  (memberVisibleTicketIds u db).contains c.ticket_id && c.author_id == u

/-- INSERT permission on project_members: the disjunction of the FOR ALL
policy "Project owners can manage members" and "Users can join projects
they're invited to" (auth.uid() = user_id). -/
def canInsertMember (u : Nat) (m : ProjectMember) (db : DB) : Bool :=
  (ownedProjectIds u db).contains m.project_id || m.user_id == u

/-- The invite flow of ProjectSettings.inviteMember combined with the
UNIQUE(project_id, user_id) constraint of the table: an insert whose
(project_id, user_id) pair is already present is rejected by the store
with a unique-constraint violation and produces no row. -/
def inviteMember (u : Nat) (db : DB) (m : ProjectMember) :
    Except String DB :=
  if !(canInsertMember u m db) then Except.error ("permission denied")
  else if db.project_members.any
      (fun x => x.project_id == m.project_id && x.user_id == m.user_id) then
    Except.error ("duplicate membership")
  else Except.ok { db with project_members := m :: db.project_members }

/-- ProjectSettings.removeMember: DELETE FROM project_members WHERE
id = memberId, row-filtered by "Project owners can manage members". -/
def removeMember (u : Nat) (mid : Nat) (db : DB) : DB :=
  { db with
    project_members := db.project_members.filter
      (fun m => !(m.id == mid && (ownedProjectIds u db).contains m.project_id)) }

/-- Dashboard.createProject: INSERT INTO projects, gated by the WITH CHECK
owner_id = auth.uid() and by the primary key on id. -/
def createProject (u : Nat) (p : Project) (db : DB) : DB :=
  if p.owner_id == u && !(db.projects.any (fun x => x.id == p.id)) then
    { db with projects := p :: db.projects }
  else db

/-- ProjectSettings.updateProject: UPDATE projects SET name, description
WHERE id = project.id, row-filtered by owner_id = auth.uid(). -/
def updateProject (u : Nat) (pid : Nat) (nm : String) (ds : Option String)
    (db : DB) : DB :=
  { db with
    projects := db.projects.map (fun p =>
      if p.id == pid && p.owner_id == u then
        { p with name := nm, description := ds }
      else p) }

/-- The field set sent by TicketDialog.handleUpdateTicket in one UPDATE. -/
structure TicketUpdate where
  title : String
  description : Option String
  type : TicketType
  priority : TicketPriority
  status : TicketStatus
  assignee_id : Option Nat
deriving DecidableEq

/-- Application of one dialog update to a ticket row: exactly the columns
named in the UPDATE statement change; id, project_id and reporter_id are
not among them. -/
def applyTicketUpdate (t : Ticket) (upd : TicketUpdate) : Ticket :=
  { t with
    title := upd.title
    description := upd.description
    type := upd.type
    priority := upd.priority
    status := upd.status
    assignee_id := upd.assignee_id }

/-- TicketDialog.handleUpdateTicket: UPDATE tickets SET ... WHERE
id = ticket.id; under RLS only rows passing the UPDATE policy change. -/
def handleUpdateTicket (u : Nat) (tid : Nat) (upd : TicketUpdate)
    (db : DB) : DB :=
  { db with
    tickets := db.tickets.map (fun t =>
      if t.id == tid && canUpdateTicket u t db then applyTicketUpdate t upd
      else t) }

/-- KanbanBoard.handleDragEnd: UPDATE tickets SET status = newStatus WHERE
id = draggableId, under the same RLS UPDATE policy. -/
def handleDragEnd (u : Nat) (tid : Nat) (s : TicketStatus) (db : DB) : DB :=
  { db with
    tickets := db.tickets.map (fun t =>
      if t.id == tid && canUpdateTicket u t db then { t with status := s }
      else t) }

/-- Ticket creation (CreateTicketDialog flow): INSERT INTO tickets, gated
by the ticket INSERT policy and the primary key on id. -/
def createTicket (u : Nat) (t : Ticket) (db : DB) : DB :=
  if canCreateTicket u t db && !(db.tickets.any (fun x => x.id == t.id)) then
    { db with tickets := t :: db.tickets }
  else db

/-- TicketDialog.handleAddComment: INSERT INTO comments, gated by the
comment INSERT policy and the primary key on id. -/
def handleAddComment (u : Nat) (c : Comment) (db : DB) : DB :=
  if canCreateComment u c db && !(db.comments.any (fun x => x.id == c.id)) then
    { db with comments := c :: db.comments }
  else db

/-- Deletion of a profile row and the foreign-key actions declared in the
constraints migration: tickets.reporter_id ON DELETE CASCADE,
tickets.assignee_id ON DELETE SET NULL, comments.author_id ON DELETE
CASCADE, project_members.user_id ON DELETE CASCADE; comments.ticket_id ON
DELETE CASCADE additionally removes comments of cascaded tickets. -/
def deleteProfile (u : Nat) (db : DB) : DB :=
  { db with
    profiles := db.profiles.filter (fun p => !(p.id == u))
    project_members := db.project_members.filter (fun m => !(m.user_id == u))
    tickets := (db.tickets.filter (fun t => !(t.reporter_id == u))).map
      (fun t => if t.assignee_id == some u then { t with assignee_id := none }
                else t)
    comments := db.comments.filter (fun c =>
      !(c.author_id == u) &&
      !(db.tickets.any (fun t => t.id == c.ticket_id && t.reporter_id == u))) }

/-- Comparison used by the comment query: ORDER BY created_at ASC. -/
def commentLe (a b : Comment) : Prop := a.created_at ≤ b.created_at

instance : DecidableRel commentLe := fun a b => Nat.decLe a.created_at b.created_at

instance : IsTotal Comment commentLe := ⟨fun a b => Nat.le_total a.created_at b.created_at⟩

instance : IsTrans Comment commentLe := ⟨fun _ _ _ h1 h2 => Nat.le_trans h1 h2⟩

/-- TicketDialog.fetchComments: SELECT from comments (row-filtered by the
comment SELECT policy) WHERE ticket_id = ticket.id ORDER BY created_at
ascending.  The single sort key is modelled by a stable sort on
created_at; no further key is supplied to the store. -/
def fetchComments (u : Nat) (tid : Nat) (db : DB) : List Comment :=
  List.insertionSort commentLe
    (db.comments.filter (fun c => canReadComment u c db && c.ticket_id == tid))

/-- Ordering asserted by the specification for the comment thread:
creation timestamp ascending, ties broken by identifier. -/
def specCommentOrder (a b : Comment) : Prop :=
  a.created_at < b.created_at ∨ (a.created_at = b.created_at ∧ a.id ≤ b.id)

instance (a b : Comment) : Decidable (specCommentOrder a b) := by
  unfold specCommentOrder
  infer_instance

/-- How the membership-visibility rule obtains the project set it filters
by: the original policy of the first migration re-queried project_members
under that same rule, the patched policy calls the SECURITY DEFINER
function get_user_project_ids instead. -/
inductive MemberPolicyPath where
  | viaSelf
  | viaDefiner

/-- Fueled evaluation of the project_members SELECT visibility.  Reading
project_members under RLS inside the policy itself consumes one unit of
fuel; a SECURITY DEFINER call reads the raw tables and consumes none.
viaSelf is the original rule (project_id IN (SELECT project_id FROM
project_members WHERE user_id = auth.uid())); viaDefiner is the patched
rule through get_user_project_ids together with the owner-side policy. -/
def evalMemberVisibility :
    MemberPolicyPath → Nat → Nat → DB → Option (List ProjectMember)
  | _, 0, _, _ => none
  | .viaDefiner, _ + 1, u, db =>
      some (db.project_members.filter (fun m =>
        (get_user_project_ids u db).contains m.project_id ||
        (ownedProjectIds u db).contains m.project_id))
  | .viaSelf, n + 1, u, db =>
      (evalMemberVisibility .viaSelf n u db).map (fun vis =>
        db.project_members.filter (fun m =>
          ((vis.filter (fun x => x.user_id == u)).map
              (fun x => x.project_id)).contains m.project_id))

/-- One mutation of the store by the operations present in the client
code: project creation and metadata update, membership invite and
removal, ticket creation, the two ticket update paths (dialog save and
drag-and-drop), and comment creation.  The client code contains no
operation that deletes or re-parents a ticket or a comment. -/
inductive Step : DB → DB → Prop where
  | createProject (u : Nat) (p : Project) (db : DB) :
      Step db (createProject u p db)
  | updateProject (u pid : Nat) (nm : String) (ds : Option String) (db : DB) :
      Step db (updateProject u pid nm ds db)
  | invite (u : Nat) (m : ProjectMember) (db db2 : DB)
      (h : inviteMember u db m = Except.ok db2) : Step db db2
  | removeMember (u mid : Nat) (db : DB) : Step db (removeMember u mid db)
  | createTicket (u : Nat) (t : Ticket) (db : DB) :
      Step db (createTicket u t db)
  | dialogUpdate (u tid : Nat) (upd : TicketUpdate) (db : DB) :
      Step db (handleUpdateTicket u tid upd db)
  | dragEnd (u tid : Nat) (s : TicketStatus) (db : DB) :
      Step db (handleDragEnd u tid s db)
  | addComment (u : Nat) (c : Comment) (db : DB) :
      Step db (handleAddComment u c db)

/-- Reflexive-transitive closure of Step: any reachable sequence of the
client operations. -/
inductive Steps : DB → DB → Prop where
  | refl (db : DB) : Steps db db
  | tail (a b c : DB) (hs : Steps a b) (h : Step b c) : Steps a c

/-- Row lookup by ticket identifier. -/
def findTicket (tid : Nat) (db : DB) : Option Ticket :=
  db.tickets.find? (fun t => t.id == tid)

/-- Row lookup by comment identifier. -/
def findComment (cid : Nat) (db : DB) : Option Comment :=
  db.comments.find? (fun c => c.id == cid)

/-! ## Concrete store states used to evaluate the theorems. -/

/-- A ticket of project 1 reported by its owner 10. -/
def tOwner : Ticket :=
  ⟨5, "t", none, TicketType.task, TicketPriority.medium, TicketStatus.todo,
   1, 10, none, none⟩

/-- A comment on ticket 5 by user 20. -/
def cOwner : Comment := ⟨7, "c", 5, 20, none, 0⟩

/-- User 10 owns project 1 but holds no membership row. -/
def dbOwnerOnly : DB := ⟨[], [⟨1, "p", none, 10⟩], [], [tOwner], [cOwner]⟩

/-- A fresh ticket for project 1 reported by user 10. -/
def tNew : Ticket :=
  ⟨11, "n", none, TicketType.task, TicketPriority.medium, TicketStatus.todo,
   1, 10, none, none⟩

/-- Stored comments of ticket 5 with equal timestamps and descending
identifiers. -/
def cTieFirst : Comment := ⟨2, "b", 5, 20, none, 3⟩

def cTieSecond : Comment := ⟨1, "a", 5, 20, none, 3⟩

/-- User 20 is a member of project 1; two comments of the same timestamp
sit in the store with the larger identifier first. -/
def dbTie : DB :=
  ⟨[], [⟨1, "p", none, 10⟩], [⟨1, 1, 20, UserRole.developer, none, 0⟩],
   [⟨5, "t", none, TicketType.task, TicketPriority.medium, TicketStatus.todo,
     1, 20, none, none⟩],
   [cTieFirst, cTieSecond]⟩

/-- A ticket of project 1 reported by member 20, unassigned. -/
def tC6 : Ticket :=
  ⟨5, "t", none, TicketType.bug, TicketPriority.high, TicketStatus.todo,
   1, 20, none, none⟩

/-- User 10 owns project 1 which holds ticket tC6. -/
def dbC6 : DB := ⟨[], [⟨1, "p", none, 10⟩], [], [tC6], []⟩

/-- A dialog update changing every editable column. -/
def updC6 : TicketUpdate :=
  ⟨"t2", some "d2", TicketType.feature, TicketPriority.low,
   TicketStatus.in_progress, some 20⟩

/-- A comment on ticket 5 by user 10. -/
def cC7 : Comment := ⟨7, "c", 5, 10, none, 0⟩

/-- Owner 10, ticket tC6 of project 1, one comment. -/
def dbC7 : DB := ⟨[], [⟨1, "p", none, 10⟩], [], [tC6], [cC7]⟩

/-- An existing membership of user 20 in project 1. -/
def mDup : ProjectMember := ⟨1, 1, 20, UserRole.developer, none, 0⟩

/-- Owner 10 of project 1 with member 20 already present. -/
def dbC8 : DB := ⟨[], [⟨1, "p", none, 10⟩], [mDup], [], []⟩

/-- A second invite of user 20 into project 1. -/
def mNew : ProjectMember := ⟨2, 1, 20, UserRole.viewer, some 10, 1⟩

/-- Ticket reported by user 10. -/
def tReported : Ticket :=
  ⟨5, "r", none, TicketType.task, TicketPriority.medium, TicketStatus.todo,
   1, 10, none, none⟩

/-- Ticket reported by 20 and assigned to 10. -/
def tAssigned : Ticket :=
  ⟨6, "a", none, TicketType.task, TicketPriority.medium, TicketStatus.todo,
   1, 20, some 10, none⟩

/-- Ticket reported by 20 and assigned to 30. -/
def tOther : Ticket :=
  ⟨8, "o", none, TicketType.task, TicketPriority.medium, TicketStatus.todo,
   1, 20, some 30, none⟩

/-- State used to evaluate the profile-deletion cascade for user 10. -/
def dbC10 : DB :=
  ⟨[⟨10, none, none⟩], [⟨1, "p", none, 20⟩],
   [⟨1, 1, 10, UserRole.developer, none, 0⟩,
    ⟨2, 1, 30, UserRole.developer, none, 0⟩],
   [tReported, tAssigned, tOther],
   [⟨7, "x", 5, 10, none, 0⟩, ⟨9, "y", 6, 20, none, 0⟩]⟩

/-! ## Characterization of the membership resolver and of the policy
subqueries. -/

theorem mem_get_user_project_ids (u p : Nat) (db : DB) :
    p ∈ get_user_project_ids u db ↔
      (∃ m ∈ db.project_members, m.user_id = u ∧ m.project_id = p) ∨
      (∃ pr ∈ db.projects, pr.owner_id = u ∧ pr.id = p) := by
  simp only [get_user_project_ids, List.mem_dedup, List.mem_append,
    List.mem_map, List.mem_filter, beq_iff_eq]
  constructor
  · rintro (⟨m, ⟨hm, hu⟩, hp⟩ | ⟨pr, ⟨hpr, ho⟩, hp⟩)
    · exact Or.inl ⟨m, hm, hu, hp⟩
    · exact Or.inr ⟨pr, hpr, ho, hp⟩
  · rintro (⟨m, hm, hu, hp⟩ | ⟨pr, hpr, ho, hp⟩)
    · exact Or.inl ⟨m, ⟨hm, hu⟩, hp⟩
    · exact Or.inr ⟨pr, ⟨hpr, ho⟩, hp⟩

theorem contains_iff_mem (l : List Nat) (a : Nat) :
    l.contains a = true ↔ a ∈ l := by
  simp

/-- The owner-side subquery is transparent: although the projects table is
read under its own SELECT policy, a row owned by the caller always passes
that policy, so the subquery returns exactly the owned project ids. -/
theorem mem_ownedProjectIds (u p : Nat) (db : DB) :
    p ∈ ownedProjectIds u db ↔
      ∃ pr ∈ db.projects, pr.id = p ∧ pr.owner_id = u := by
  simp only [ownedProjectIds, visibleProjects, projectRowVisible,
    List.mem_map, List.mem_filter, Bool.or_eq_true, beq_iff_eq]
  constructor
  · rintro ⟨pr, ⟨⟨hpr, _⟩, ho⟩, hp⟩
    exact ⟨pr, hpr, hp, ho⟩
  · rintro ⟨pr, hpr, hp, ho⟩
    exact ⟨pr, ⟨⟨hpr, Or.inr (by simpa using ho)⟩, ho⟩, hp⟩

/-- The membership subquery of the ticket and comment policies is
transparent: a project_members row of the caller is always visible to the
caller (its project is in the resolver output), so filtering the table by
the membership-visibility rule before restricting to user_id = caller
changes nothing. -/
theorem mem_membershipProjectIds (u p : Nat) (db : DB) :
    p ∈ membershipProjectIds u db ↔
      ∃ m ∈ db.project_members, m.user_id = u ∧ m.project_id = p := by
  simp only [membershipProjectIds, visibleMembers, memberRowVisible,
    List.mem_map, List.mem_filter, Bool.or_eq_true, beq_iff_eq]
  constructor
  · rintro ⟨m, ⟨⟨hm, _⟩, hu⟩, hp⟩
    exact ⟨m, hm, hu, hp⟩
  · rintro ⟨m, hm, hu, hp⟩
    refine ⟨m, ⟨⟨hm, Or.inl ?_⟩, hu⟩, hp⟩
    rw [contains_iff_mem, mem_get_user_project_ids]
    exact Or.inl ⟨m, hm, hu, rfl⟩

/-- The inner ticket subquery of the comment policies is transparent: a
ticket of a project the caller is a member of always passes the ticket
SELECT policy, so the nested read returns exactly the tickets whose
project carries a membership row of the caller. -/
theorem mem_memberVisibleTicketIds (u i : Nat) (db : DB) :
    i ∈ memberVisibleTicketIds u db ↔
      ∃ t ∈ db.tickets, t.id = i ∧
        ∃ m ∈ db.project_members, m.user_id = u ∧ m.project_id = t.project_id := by
  simp only [memberVisibleTicketIds, visibleTickets, canReadTicket,
    List.mem_map, List.mem_filter]
  constructor
  · rintro ⟨t, ⟨⟨ht, _⟩, hmem⟩, hi⟩
    rw [contains_iff_mem, mem_membershipProjectIds] at hmem
    exact ⟨t, ht, hi, hmem⟩
  · rintro ⟨t, ht, hi, hm⟩
    refine ⟨t, ⟨⟨ht, ?_⟩, ?_⟩, hi⟩
    · rw [contains_iff_mem, mem_get_user_project_ids]
      obtain ⟨m, hm1, hm2, hm3⟩ := hm
      exact Or.inl ⟨m, hm1, hm2, hm3⟩
    · rw [contains_iff_mem, mem_membershipProjectIds]
      exact hm

/-! ## Frame lemmas for the mutation steps. -/

theorem find?_map_pres {α : Type} (f : α → α) (p : α → Bool)
    (h : ∀ x, p (f x) = p x) (l : List α) :
    (l.map f).find? p = (l.find? p).map f := by
  induction l with
  | nil => rfl
  | cons a l ih =>
    cases hpa : p a with
    | true => simp [List.find?_cons, h a, hpa]
    | false => simp [List.find?_cons, h a, hpa, ih]

/-- A step never changes the project reference of an existing ticket row:
the row either survives unchanged, or is rewritten by one of the two
update paths, both of which leave id and project_id alone. -/
theorem step_find_ticket (db db2 : DB) (h : Step db db2) (tid : Nat)
    (t : Ticket) (hf : findTicket tid db = some t) :
    ∃ t2, findTicket tid db2 = some t2 ∧ t2.project_id = t.project_id := by
  cases h with
  | createProject u p db =>
    refine ⟨t, ?_, rfl⟩
    unfold BugTracker.createProject
    split <;> simpa [findTicket] using hf
  | updateProject u pid nm ds db =>
    exact ⟨t, by simpa [findTicket, BugTracker.updateProject] using hf, rfl⟩
  | invite u m db db2 hinv =>
    refine ⟨t, ?_, rfl⟩
    unfold inviteMember at hinv
    split at hinv
    · exact absurd hinv (by simp)
    · split at hinv
      · exact absurd hinv (by simp)
      · obtain rfl : _ = db2 := Except.ok.inj hinv
        simpa [findTicket] using hf
  | removeMember u mid db =>
    exact ⟨t, by simpa [findTicket, BugTracker.removeMember] using hf, rfl⟩
  | addComment u c db =>
    refine ⟨t, ?_, rfl⟩
    unfold handleAddComment
    split <;> simpa [findTicket] using hf
  | createTicket u t0 db =>
    refine ⟨t, ?_, rfl⟩
    have hfu : List.find? (fun x => x.id == tid) db.tickets = some t := hf
    unfold BugTracker.createTicket
    split
    case isFalse => simpa [findTicket] using hf
    case isTrue hc =>
      have hany : (db.tickets.any fun x => x.id == t0.id) = false := by
        cases hA : (db.tickets.any fun x => x.id == t0.id) with
        | false => rfl
        | true => rw [hA] at hc; simp at hc
      have htmem : t ∈ db.tickets := List.mem_of_find?_eq_some hfu
      have htid : (t.id == tid) = true := by simpa using List.find?_some hfu
      have ht0 : (t.id == t0.id) = false := by
        cases hb : (t.id == t0.id) with
        | false => rfl
        | true =>
          have : db.tickets.any (fun x => x.id == t0.id) = true :=
            List.any_eq_true.mpr ⟨t, htmem, hb⟩
          rw [this] at hany
          exact absurd hany (by simp)
      have hne : (t0.id == tid) = false := by
        cases hb : (t0.id == tid) with
        | false => rfl
        | true =>
          have h1 : t0.id = tid := by simpa using hb
          have h2 : t.id = tid := by simpa using htid
          have : (t.id == t0.id) = true := by simp [h1, h2]
          rw [this] at ht0
          exact absurd ht0 (by simp)
      show List.find? (fun x => x.id == tid) (t0 :: db.tickets) = some t
      rw [List.find?_cons_of_neg _ (by simp [hne])]
      exact hfu
  | dialogUpdate u tid0 upd db =>
    have hpres : ∀ x : Ticket,
        (((if x.id == tid0 && canUpdateTicket u x db then applyTicketUpdate x upd
           else x) : Ticket).id == tid) = (x.id == tid) := by
      intro x
      split <;> rfl
    have hmap := find?_map_pres
      (fun x => if x.id == tid0 && canUpdateTicket u x db then applyTicketUpdate x upd else x)
      (fun x => x.id == tid) hpres db.tickets
    have hfu : List.find? (fun x => x.id == tid) db.tickets = some t := hf
    refine ⟨if t.id == tid0 && canUpdateTicket u t db then applyTicketUpdate t upd
            else t, ?_, ?_⟩
    · show (db.tickets.map
          (fun x => if x.id == tid0 && canUpdateTicket u x db then applyTicketUpdate x upd
                    else x)).find? (fun x => x.id == tid) = _
      rw [hmap, hfu]
      rfl
    · split <;> rfl
  | dragEnd u tid0 s db =>
    have hpres : ∀ x : Ticket,
        (((if x.id == tid0 && canUpdateTicket u x db then { x with status := s }
           else x) : Ticket).id == tid) = (x.id == tid) := by
      intro x
      split <;> rfl
    have hmap := find?_map_pres
      (fun x => if x.id == tid0 && canUpdateTicket u x db then { x with status := s } else x)
      (fun x => x.id == tid) hpres db.tickets
    have hfu : List.find? (fun x => x.id == tid) db.tickets = some t := hf
    refine ⟨if t.id == tid0 && canUpdateTicket u t db then { t with status := s }
            else t, ?_, ?_⟩
    · show (db.tickets.map
          (fun x => if x.id == tid0 && canUpdateTicket u x db then { x with status := s }
                    else x)).find? (fun x => x.id == tid) = _
      rw [hmap, hfu]
      rfl
    · split <;> rfl

/-- A step never changes the ticket reference of an existing comment row:
no client operation updates comments, and comment creation only prepends
a row with a fresh identifier. -/
theorem step_find_comment (db db2 : DB) (h : Step db db2) (cid : Nat)
    (c : Comment) (hf : findComment cid db = some c) :
    ∃ c2, findComment cid db2 = some c2 ∧ c2.ticket_id = c.ticket_id := by
  cases h with
  | createProject u p db =>
    refine ⟨c, ?_, rfl⟩
    unfold BugTracker.createProject
    split <;> simpa [findComment] using hf
  | updateProject u pid nm ds db =>
    exact ⟨c, by simpa [findComment, BugTracker.updateProject] using hf, rfl⟩
  | invite u m db db2 hinv =>
    refine ⟨c, ?_, rfl⟩
    unfold inviteMember at hinv
    split at hinv
    · exact absurd hinv (by simp)
    · split at hinv
      · exact absurd hinv (by simp)
      · obtain rfl : _ = db2 := Except.ok.inj hinv
        simpa [findComment] using hf
  | removeMember u mid db =>
    exact ⟨c, by simpa [findComment, BugTracker.removeMember] using hf, rfl⟩
  | createTicket u t0 db =>
    refine ⟨c, ?_, rfl⟩
    unfold BugTracker.createTicket
    split <;> simpa [findComment] using hf
  | dialogUpdate u tid0 upd db =>
    exact ⟨c, by simpa [findComment, handleUpdateTicket] using hf, rfl⟩
  | dragEnd u tid0 s db =>
    exact ⟨c, by simpa [findComment, handleDragEnd] using hf, rfl⟩
  | addComment u c0 db =>
    refine ⟨c, ?_, rfl⟩
    have hfu : List.find? (fun x => x.id == cid) db.comments = some c := hf
    unfold handleAddComment
    split
    case isFalse => simpa [findComment] using hf
    case isTrue hc =>
      have hany : (db.comments.any fun x => x.id == c0.id) = false := by
        cases hA : (db.comments.any fun x => x.id == c0.id) with
        | false => rfl
        | true => rw [hA] at hc; simp at hc
      have hcmem : c ∈ db.comments := List.mem_of_find?_eq_some hfu
      have hcid : (c.id == cid) = true := by simpa using List.find?_some hfu
      have hc0 : (c.id == c0.id) = false := by
        cases hb : (c.id == c0.id) with
        | false => rfl
        | true =>
          have : db.comments.any (fun x => x.id == c0.id) = true :=
            List.any_eq_true.mpr ⟨c, hcmem, hb⟩
          rw [this] at hany
          exact absurd hany (by simp)
      have hne : (c0.id == cid) = false := by
        cases hb : (c0.id == cid) with
        | false => rfl
        | true =>
          have h1 : c0.id = cid := by simpa using hb
          have h2 : c.id = cid := by simpa using hcid
          have : (c.id == c0.id) = true := by simp [h1, h2]
          rw [this] at hc0
          exact absurd hc0 (by simp)
      show List.find? (fun x => x.id == cid) (c0 :: db.comments) = some c
      rw [List.find?_cons_of_neg _ (by simp [hne])]
      exact hfu

theorem steps_find_ticket (db db2 : DB) (h : Steps db db2) (tid : Nat)
    (t : Ticket) (hf : findTicket tid db = some t) :
    ∃ t2, findTicket tid db2 = some t2 ∧ t2.project_id = t.project_id := by
  induction h with
  | refl => exact ⟨t, hf, rfl⟩
  | tail b c2 hs hstep ih =>
    obtain ⟨t1, hf1, hp1⟩ := ih
    obtain ⟨t2, hf2, hp2⟩ := step_find_ticket b c2 hstep tid t1 hf1
    exact ⟨t2, hf2, hp2.trans hp1⟩

theorem steps_find_comment (db db2 : DB) (h : Steps db db2) (cid : Nat)
    (c : Comment) (hf : findComment cid db = some c) :
    ∃ c2, findComment cid db2 = some c2 ∧ c2.ticket_id = c.ticket_id := by
  induction h with
  | refl => exact ⟨c, hf, rfl⟩
  | tail b c2 hs hstep ih =>
    obtain ⟨c1, hf1, hp1⟩ := ih
    obtain ⟨c2x, hf2, hp2⟩ := step_find_comment b c2 hstep cid c1 hf1
    exact ⟨c2x, hf2, hp2.trans hp1⟩

/-- The self-referential membership-visibility rule of the first migration
never produces a result under any finite recursion budget. -/
theorem evalMemberVisibility_viaSelf_none (n u : Nat) (db : DB) :
    evalMemberVisibility MemberPolicyPath.viaSelf n u db = none := by
  induction n with
  | zero => rfl
  | succ n ih => simp [evalMemberVisibility, ih]

/-! ## The claims. -/

/-- Claim C1: for every user U and project P, P is in the result of
get_user_project_ids for U exactly when the owner of P is U or a
membership row (P, U) exists: the resolver computes the union of owned
projects and membership projects. -/
theorem claim_C1_resolver_union (u p : Nat) (db : DB) :
    p ∈ get_user_project_ids u db ↔
      (∃ pr ∈ db.projects, pr.owner_id = u ∧ pr.id = p) ∨
      (∃ m ∈ db.project_members, m.user_id = u ∧ m.project_id = p) :=
  (mem_get_user_project_ids u p db).trans (or_comm)

/-- Claim C2: the resolver is evaluated on a privileged path reading the
raw tables (the SECURITY DEFINER body of get_user_project_ids), and the
membership-visibility rule consuming it never reads project_members under
its own rule again, so the fueled evaluation succeeds with one unit of
fuel for every store state; the original self-referential rule, by
contrast, never terminates under any budget. -/
theorem claim_C2_nonrecursive_resolution (u : Nat) (db : DB) (n : Nat)
    (h : 0 < n) :
    evalMemberVisibility MemberPolicyPath.viaDefiner n u db =
      some (visibleMembers u db) ∧
    evalMemberVisibility MemberPolicyPath.viaSelf n u db = none := by
  obtain ⟨m, rfl⟩ : ∃ m, n = m + 1 := ⟨n - 1, (Nat.succ_pred_eq_of_pos h).symm⟩
  exact ⟨rfl, evalMemberVisibility_viaSelf_none (m + 1) u db⟩

theorem claim_C2_witness :
    0 < 1 ∧
    (evalMemberVisibility MemberPolicyPath.viaDefiner 1 20 dbOwnerOnly =
        some (visibleMembers 20 dbOwnerOnly) ∧
     evalMemberVisibility MemberPolicyPath.viaSelf 1 20 dbOwnerOnly = none) :=
  ⟨by decide, claim_C2_nonrecursive_resolution 20 dbOwnerOnly 1 (by decide)⟩

/-- Claim C3 counterexample: user 10 owns project 1 without a membership
row, so project 1 is in AccessibleProjects(10) and the new ticket names
10 as reporter, yet the INSERT policy denies the creation: the claimed
equivalence with AccessibleProjects fails. -/
theorem claim_C3_counterexample :
    (1 : Nat) ∈ get_user_project_ids 10 dbOwnerOnly ∧
    tNew.reporter_id = 10 ∧
    canCreateTicket 10 tNew dbOwnerOnly = false := by decide

/-- Claim C3 (amended): ticket creation by U in project P is allowed
exactly when a membership row (P, U) exists and the reporter of the new
ticket is U; ownership alone, without a membership row, does not grant
creation. -/
theorem claim_C3_create_requires_membership (u : Nat) (t : Ticket) (db : DB) :
    canCreateTicket u t db = true ↔
      (∃ m ∈ db.project_members, m.user_id = u ∧ m.project_id = t.project_id) ∧
      t.reporter_id = u := by
  unfold canCreateTicket
  rw [Bool.and_eq_true, contains_iff_mem, mem_membershipProjectIds, beq_iff_eq]

/-- Claim C4 counterexample: user 10 owns project 1 without a membership
row; 10 can read ticket 5 of the project under the patched ticket policy,
but the never-patched comment policy denies reading the comment on that
same ticket, so comment readability is not equivalent to ticket
readability. -/
theorem claim_C4_counterexample :
    canReadTicket 10 tOwner dbOwnerOnly = true ∧
    cOwner.ticket_id = tOwner.id ∧
    canReadComment 10 cOwner dbOwnerOnly = false := by decide

/-- Claim C4 (amended): U may read comment C exactly when some ticket row
carries the id C references and a membership row ties U to that ticket's
project; creation additionally requires the author to be U.  The project
owner without a membership row may read the ticket but not its comments. -/
theorem claim_C4_comment_gating (u : Nat) (c : Comment) (db : DB) :
    (canReadComment u c db = true ↔
      ∃ t ∈ db.tickets, t.id = c.ticket_id ∧
        ∃ m ∈ db.project_members, m.user_id = u ∧ m.project_id = t.project_id) ∧
    (canCreateComment u c db = true ↔
      (∃ t ∈ db.tickets, t.id = c.ticket_id ∧
        ∃ m ∈ db.project_members, m.user_id = u ∧ m.project_id = t.project_id) ∧
      c.author_id = u) := by
  constructor
  · unfold canReadComment
    rw [contains_iff_mem, mem_memberVisibleTicketIds]
  · unfold canCreateComment
    rw [Bool.and_eq_true, contains_iff_mem, mem_memberVisibleTicketIds,
      beq_iff_eq]

/-- Claim C5: a ticket update by U is allowed exactly when U is the
assignee or U owns the ticket's project; any other user is denied. -/
theorem claim_C5_update_policy (u : Nat) (t : Ticket) (db : DB) :
    canUpdateTicket u t db = true ↔
      t.assignee_id = some u ∨
      ∃ p ∈ db.projects, p.id = t.project_id ∧ p.owner_id = u := by
  unfold canUpdateTicket
  rw [Bool.or_eq_true, contains_iff_mem, mem_ownedProjectIds, beq_iff_eq]

/-- Claim C6: for a user authorized to update a ticket, the dialog update
succeeds whatever the current and requested status are — the updated row
is stored with exactly the requested status, title, description, type,
priority and assignee, all set in the single operation — and the
drag-and-drop path likewise stores any requested status.  No transition
among the three statuses is forbidden. -/
theorem claim_C6_all_transitions (u : Nat) (t : Ticket) (upd : TicketUpdate)
    (s2 : TicketStatus) (db : DB) (ht : t ∈ db.tickets)
    (hauth : canUpdateTicket u t db = true) :
    (applyTicketUpdate t upd ∈ (handleUpdateTicket u t.id upd db).tickets ∧
     (applyTicketUpdate t upd).status = upd.status ∧
     (applyTicketUpdate t upd).title = upd.title ∧
     (applyTicketUpdate t upd).description = upd.description ∧
     (applyTicketUpdate t upd).type = upd.type ∧
     (applyTicketUpdate t upd).priority = upd.priority ∧
     (applyTicketUpdate t upd).assignee_id = upd.assignee_id) ∧
    ({ t with status := s2 } : Ticket) ∈ (handleDragEnd u t.id s2 db).tickets := by
  have hcond : (t.id == t.id && canUpdateTicket u t db) = true := by
    simp [hauth]
  constructor
  · refine ⟨?_, rfl, rfl, rfl, rfl, rfl, rfl⟩
    have hmem := List.mem_map_of_mem
      (fun x => if x.id == t.id && canUpdateTicket u x db then applyTicketUpdate x upd
                else x) ht
    simpa [handleUpdateTicket, hcond, hauth] using hmem
  · have hmem := List.mem_map_of_mem
      (fun x => if x.id == t.id && canUpdateTicket u x db then { x with status := s2 }
                else x) ht
    simpa [handleDragEnd, hcond, hauth] using hmem

theorem claim_C6_witness :
    tC6 ∈ dbC6.tickets ∧ canUpdateTicket 10 tC6 dbC6 = true ∧
    applyTicketUpdate tC6 updC6 ∈ (handleUpdateTicket 10 tC6.id updC6 dbC6).tickets ∧
    ({ tC6 with status := TicketStatus.done } : Ticket) ∈
      (handleDragEnd 10 tC6.id TicketStatus.done dbC6).tickets :=
  ⟨by decide, by decide,
   (claim_C6_all_transitions 10 tC6 updC6 TicketStatus.done dbC6
     (by decide) (by decide)).1.1,
   (claim_C6_all_transitions 10 tC6 updC6 TicketStatus.done dbC6
     (by decide) (by decide)).2⟩

/-- Claim C7: along any sequence of the client mutation operations, a
ticket row that exists before and after keeps its project reference, and
a comment row that exists before and after keeps its ticket reference. -/
theorem claim_C7_references_immutable (db db2 : DB) (h : Steps db db2)
    (tid cid : Nat) (t t2 : Ticket) (c c2 : Comment)
    (hft : findTicket tid db = some t) (hft2 : findTicket tid db2 = some t2)
    (hfc : findComment cid db = some c) (hfc2 : findComment cid db2 = some c2) :
    t2.project_id = t.project_id ∧ c2.ticket_id = c.ticket_id := by
  obtain ⟨t3, hf3, hp3⟩ := steps_find_ticket db db2 h tid t hft
  obtain ⟨c3, hf3c, hp3c⟩ := steps_find_comment db db2 h cid c hfc
  rw [hft2] at hf3
  rw [hfc2] at hf3c
  obtain rfl : t2 = t3 := Option.some.inj hf3
  obtain rfl : c2 = c3 := Option.some.inj hf3c
  exact ⟨hp3, hp3c⟩

theorem claim_C7_witness :
    ({ tC6 with status := TicketStatus.done } : Ticket).project_id =
      tC6.project_id ∧
    cC7.ticket_id = cC7.ticket_id :=
  claim_C7_references_immutable dbC7 (handleDragEnd 10 5 TicketStatus.done dbC7)
    (Steps.tail dbC7 dbC7 (handleDragEnd 10 5 TicketStatus.done dbC7)
      (Steps.refl dbC7) (Step.dragEnd 10 5 TicketStatus.done dbC7))
    5 7 tC6 { tC6 with status := TicketStatus.done } cC7 cC7
    (by decide) (by decide) (by decide) (by decide)

/-- Claim C8: when a membership row for the same (project, user) pair is
already present, an authorized re-invite is rejected by the store with
the unique-constraint violation; no state is produced, so the table is
unchanged and no duplicate row appears. -/
theorem claim_C8_duplicate_invite (u : Nat) (db : DB) (m : ProjectMember)
    (hperm : canInsertMember u m db = true)
    (hdup : ∃ x ∈ db.project_members,
      x.project_id = m.project_id ∧ x.user_id = m.user_id) :
    inviteMember u db m = Except.error ("duplicate membership") := by
  unfold inviteMember
  rw [if_neg (by simp [hperm]), if_pos]
  obtain ⟨x, hx, h1, h2⟩ := hdup
  exact List.any_eq_true.mpr ⟨x, hx, by simp [h1, h2]⟩

theorem claim_C8_witness :
    canInsertMember 10 mNew dbC8 = true ∧
    inviteMember 10 dbC8 mNew = Except.error ("duplicate membership") :=
  ⟨by decide, claim_C8_duplicate_invite 10 dbC8 mNew (by decide) (by decide)⟩

/-- Claim C9 counterexample: two comments of ticket 5 share a creation
timestamp and sit in the store with the larger identifier first; the
thread query sorts on the timestamp alone, so its output is not ordered
by (timestamp, identifier) as the claim asserts. -/
theorem claim_C9_counterexample :
    ¬ List.Pairwise specCommentOrder (fetchComments 20 5 dbTie) := by decide

/-- Claim C9 (amended): the thread query returns a permutation of the
visible comments of the ticket sorted by creation timestamp ascending;
comments of equal timestamp are not tie-broken by identifier (the store
order is kept). -/
theorem claim_C9_order_by_created_at (u tid : Nat) (db : DB) :
    (fetchComments u tid db).Perm
      (db.comments.filter (fun c => canReadComment u c db && c.ticket_id == tid)) ∧
    List.Sorted commentLe (fetchComments u tid db) :=
  ⟨List.perm_insertionSort commentLe _, List.sorted_insertionSort commentLe _⟩

/-- Claim C10: deleting the profile of U removes every ticket U reported,
every comment U authored and every membership row of U, while a ticket
merely assigned to U survives with its assignee cleared, and a ticket
touching U in neither role survives unchanged. -/
theorem claim_C10_profile_cascade (u : Nat) (db : DB) :
    (∀ t ∈ (deleteProfile u db).tickets, t.reporter_id ≠ u) ∧
    (∀ c ∈ (deleteProfile u db).comments, c.author_id ≠ u) ∧
    (∀ m ∈ (deleteProfile u db).project_members, m.user_id ≠ u) ∧
    (∀ t ∈ db.tickets, t.reporter_id ≠ u → t.assignee_id = some u →
      ({ t with assignee_id := none } : Ticket) ∈ (deleteProfile u db).tickets) ∧
    (∀ t ∈ db.tickets, t.reporter_id ≠ u → t.assignee_id ≠ some u →
      t ∈ (deleteProfile u db).tickets) := by
  refine ⟨?_, ?_, ?_, ?_, ?_⟩
  · intro t ht
    simp only [deleteProfile, List.mem_map, List.mem_filter] at ht
    obtain ⟨t0, ⟨_, h0⟩, rfl⟩ := ht
    have : t0.reporter_id ≠ u := by simpa using h0
    split <;> simpa using this
  · intro c hc
    simp only [deleteProfile, List.mem_filter] at hc
    have := hc.2
    simp only [Bool.and_eq_true] at this
    simpa using this.1
  · intro m hm
    simp only [deleteProfile, List.mem_filter] at hm
    simpa using hm.2
  · intro t ht hr ha
    simp only [deleteProfile, List.mem_map, List.mem_filter]
    refine ⟨t, ⟨ht, by simpa using hr⟩, ?_⟩
    rw [if_pos (by simp [ha])]
  · intro t ht hr ha
    simp only [deleteProfile, List.mem_map, List.mem_filter]
    refine ⟨t, ⟨ht, by simpa using hr⟩, ?_⟩
    rw [if_neg (by simp [ha])]

theorem claim_C10_witness :
    ({ tAssigned with assignee_id := none } : Ticket) ∈
      (deleteProfile 10 dbC10).tickets ∧
    tOther ∈ (deleteProfile 10 dbC10).tickets :=
  ⟨(claim_C10_profile_cascade 10 dbC10).2.2.2.1 tAssigned
    (by decide) (by decide) (by decide),
   (claim_C10_profile_cascade 10 dbC10).2.2.2.2 tOther
    (by decide) (by decide) (by decide)⟩

end BugTracker
